import Mathlib

/-!
The Python wrapper of the multilevel B-spline library (`python/pymba.cpp`).

A shallow embedding of `precondition`, of the constructor of `python_mba<NDim>` and of
`python_mba<NDim>::apply`, followed by the properties proved about them.

Conventions of the embedding.

* A `py::buffer_info` is its `shape` vector together with the doubles (or ints) found at
  `ptr`, in memory order; `ndim` is the length of `shape` and `count` is the product of
  the shape entries computed in `size_t`, as pybind11 computes it.
* `size_t` is `Nat` reduced modulo `2 ^ 64` wherever the source multiplies; `int` is `Int`
  with the conversion `toInt`.
* The element type `D` of the arrays stands for `double`; the wrapper only moves such values
  around, so it is a parameter.
* A call ends in a value, in a `std::runtime_error` thrown by `precondition`, or in
  undefined behaviour (an access outside a vector or array, a division by zero).
* The engine `mba::MBA<NDim>` of `mba/mba.hpp` is not part of the embedded file. Its
  constructor is represented by the arguments it is called with, or by a parameter `build`
  taking these arguments, and its call operator by a parameter `call` taking the engine and a
  point and giving the value and the engine afterwards.
-/

namespace Pymba

/-! ## The embedding -/

/-- The ways a call can end without a value. -/
inductive Failure where
  | runtime_error (what : String)
  | undefined
  deriving DecidableEq, Repr

deriving instance DecidableEq for Except

/-- The part of `py::buffer_info` the wrapper reads: the shape and the elements at `ptr`. -/
structure buffer_info (D : Type) where
  shape : List Nat
  data : List D
  deriving DecidableEq, Repr

/-- The field `ndim` of a `py::buffer_info`. -/
def buffer_info.ndim {D : Type} (b : buffer_info D) : Nat := b.shape.length

/-- The field `count` of a `py::buffer_info`: `count *= shape[i]` over all axes, in `size_t`. -/
def buffer_info.count {D : Type} (b : buffer_info D) : Nat :=
  b.shape.foldl (fun c s => (c * s) % 2 ^ 64) 1

/-- What numpy guarantees of every array it hands out: at most `NPY_MAXDIMS` axes (32, and 64
since numpy 2), a byte size over the non-zero axes that fits `npy_intp`, and, for a
C-contiguous array of doubles, one element at `ptr` per index. -/
def buffer_info.WF {D : Type} (b : buffer_info D) : Prop :=
  b.ndim ≤ 64 ∧ 8 * (b.shape.filter (fun s => s ≠ 0)).prod < 2 ^ 63 ∧
    b.data.length = b.shape.prod

instance {D : Type} (b : buffer_info D) : Decidable b.WF :=
  inferInstanceAs (Decidable (b.ndim ≤ 64 ∧
    8 * (b.shape.filter (fun s => s ≠ 0)).prod < 2 ^ 63 ∧ b.data.length = b.shape.prod))

/-- `void precondition(bool cond, std::string error_message)`. -/
def precondition (cond : Bool) (error_message : String) : Except Failure Unit :=
  if !cond then .error (.runtime_error error_message) else .ok ()

/-- Conversion of a `size_t` to `int` (two's complement, 32 bits). -/
def toInt (x : Nat) : Int :=
  if x % 2 ^ 32 < 2 ^ 31 then (x % 2 ^ 32 : Nat) else (x % 2 ^ 32 : Nat) - 2 ^ 32

/-- Conversion of an `int` to `size_t`. -/
def toSize (x : Int) : Nat := (x % 2 ^ 64).toNat

/-- `v[i] = x` on a vector or array: outside the bounds the behaviour is undefined. -/
def store {α : Type} (v : List α) (i : Nat) (x : α) : Except Failure (List α) :=
  if i < v.length then .ok (v.set i x) else .error .undefined

/-- `v[i]` on a vector or array: outside the bounds the behaviour is undefined. -/
def load {α : Type} (v : List α) (i : Nat) : Except Failure α :=
  match v[i]? with
  | some x => .ok x
  | none => .error .undefined

/-- `std::copy_n(src, n, dst)` for a source and a destination that both hold as many
elements as the lists do: the first `n` elements of `dst` become those of `src`; with `n`
beyond either end the copy leaves the arrays. -/
def copy_n {α : Type} (src : List α) (n : Nat) (dst : List α) : Except Failure (List α) :=
  if n ≤ src.length ∧ n ≤ dst.length then .ok (src.take n ++ dst.drop n)
  else .error .undefined

/-- The point `begin[k]` of a `const point*` over the doubles `data`: the `NDim` doubles
from offset `k * NDim`. -/
def point_at {D : Type} (NDim : Nat) (data : List D) (k : Nat) : Except Failure (List D) :=
  if (k + 1) * NDim ≤ data.length then .ok ((data.drop (k * NDim)).take NDim)
  else .error .undefined

/-- The arguments of the call `mba::MBA<NDim>(cmin, cmax, grid_size, coo_begin, coo_end,
val_begin, max_levels, tol, min_fill)` that ends the constructor. -/
structure engine_args (D : Type) where
  cmin : List D
  cmax : List D
  grid_size : List Nat
  coo_data : List D
  n : Nat
  val_data : List D
  max_levels : Int
  tol : D
  min_fill : D
  deriving DecidableEq, Repr

/-- The constructor of `python_mba<NDim>`, up to the call of the engine constructor whose
arguments it returns. `cmin0`, `cmax0` and `grid0` give the indeterminate contents of the
locals `cmin`, `cmax` and `grid_size` before anything is copied into them. -/
def python_mba {D : Type} (NDim : Nat) (lo hi : buffer_info D) (grid : buffer_info Int)
    (coo val : buffer_info D) (max_levels : Int) (tol min_fill : D)
    (cmin0 cmax0 : Nat → D) (grid0 : Nat → Nat) : Except Failure (engine_args D) := do
  precondition (lo.ndim == 1 && lo.shape[0]? == some NDim)
    ("lo should be a vector of size " ++ toString NDim)
  precondition (hi.ndim == 1 && hi.shape[0]? == some NDim)
    ("hi should be a vector of size " ++ toString NDim)
  precondition (grid.ndim == 1 && grid.shape[0]? == some NDim)
    ("grid should be a vector of size " ++ toString NDim)
  precondition (coo.ndim == 2 && coo.shape[1]? == some NDim)
    ("coo should be a n x " ++ toString NDim ++ " matrix")
  precondition (val.ndim == 1 && val.shape[0]? == coo.shape[0]?)
    "coo and val dimensions disagree"
  let n ← load coo.shape 0
  let cmin ← copy_n lo.data n ((List.range NDim).map cmin0)
  let cmax ← copy_n hi.data n ((List.range NDim).map cmax0)
  let grid_size ← copy_n (grid.data.map toSize) n ((List.range NDim).map grid0)
  return { cmin := cmin, cmax := cmax, grid_size := grid_size, coo_data := coo.data, n := n,
           val_data := val.data, max_levels := max_levels, tol := tol, min_fill := min_fill }

/-- The loop `for(int i = ...; i > 0; --i)` of `apply`, entered with `i` positive or zero:
`shape[i-1] = coo.shape[i-1]; strides[i-1] = strides[i] * shape[i];`. -/
def apply_loop (coo_shape : List Nat) :
    Nat → List Nat → List Nat → Except Failure (List Nat × List Nat)
  | 0, shape, strides => .ok (shape, strides)
  | i + 1, shape, strides => do
    let c ← load coo_shape i
    let shape ← store shape i c
    let s ← load strides (i + 1)
    let t ← load shape (i + 1)
    let strides ← store strides i ((s * t) % 2 ^ 64)
    apply_loop coo_shape i shape strides

/-- The call `std::transform(coo_begin, coo_end, val.begin(), std::ref(*m))` over `n`
points, from the first to the last; every call of the engine may change the engine. -/
def transform {D M : Type} (call : M → List D → D × M) (NDim : Nat) (data : List D) (m : M) :
    Nat → Except Failure (List D) × M
  | 0 => (.ok [], m)
  | k + 1 =>
    match transform call NDim data m k with
    | (.error e, m1) => (.error e, m1)
    | (.ok vals, m1) =>
      match point_at NDim data k with
      | .error e => (.error e, m1)
      | .ok p => (.ok (vals ++ [(call m1 p).1]), (call m1 p).2)

/-- The `py::buffer_info` from which `apply` builds the array it returns. -/
structure array_out (D : Type) where
  itemsize : Nat
  ndim : Nat
  shape : List Nat
  strides : List Nat
  data : List D
  deriving DecidableEq, Repr

/-- The part of `apply` before the engine is called: the check of the query array, the
vectors `shape` and `strides`, and the number `n` of points. -/
def apply_layout {D : Type} (NDim : Nat) (coo : buffer_info D) :
    Except Failure (List Nat × List Nat × Nat) := do
  let ndim := coo.ndim
  precondition (decide (2 ≤ ndim) && coo.shape[ndim - 1]? == some NDim)
    ("coo should be a n x " ++ toString NDim ++ " matrix")
  let strides := List.replicate (ndim - 1) 0
  let shape := List.replicate (ndim - 1) 0
  let c ← load coo.shape (ndim - 2)
  let shape ← store shape (shape.length - 1) c
  let strides ← store strides (strides.length - 1) 8
  let (shape, strides) ← apply_loop coo.shape (toInt (ndim - 2)).toNat shape strides
  if NDim = 0 then .error .undefined
  else
    let n := coo.count / NDim
    return (shape, strides, n)

/-- The method `python_mba<NDim>::apply`, for an engine `m` called through `call`; the second
component is the engine after the method has ended. -/
def apply {D M : Type} (NDim : Nat) (call : M → List D → D × M) (m : M) (coo : buffer_info D) :
    Except Failure (array_out D) × M :=
  match apply_layout NDim coo with
  | .error e => (.error e, m)
  | .ok (shape, strides, n) =>
    match transform call NDim coo.data m n with
    | (.error e, m1) => (.error e, m1)
    | (.ok val, m1) =>
      (.ok { itemsize := 8, ndim := coo.ndim - 1, shape := shape, strides := strides,
             data := val }, m1)

/-- The five shape conditions of the constructor. -/
def shapes_ok {D : Type} (NDim : Nat) (lo hi : buffer_info D) (grid : buffer_info Int)
    (coo val : buffer_info D) : Prop :=
  lo.shape = [NDim] ∧ hi.shape = [NDim] ∧ grid.shape = [NDim] ∧
    (coo.shape.length = 2 ∧ coo.shape[1]? = some NDim) ∧
    (val.shape.length = 1 ∧ val.shape[0]? = coo.shape[0]?)

instance {D : Type} (NDim : Nat) (lo hi : buffer_info D) (grid : buffer_info Int)
    (coo val : buffer_info D) : Decidable (shapes_ok NDim lo hi grid coo val) :=
  inferInstanceAs (Decidable (lo.shape = [NDim] ∧ hi.shape = [NDim] ∧ grid.shape = [NDim] ∧
    (coo.shape.length = 2 ∧ coo.shape[1]? = some NDim) ∧
    (val.shape.length = 1 ∧ val.shape[0]? = coo.shape[0]?)))

/-- Row-major byte strides of a shape for 8-byte elements. -/
def cstrides : List Nat → List Nat
  | [] => []
  | _ :: xs => 8 * xs.prod :: cstrides xs

/-- The check of `apply`: at least two axes, the last of length `NDim`. -/
def accepted {D : Type} (NDim : Nat) (coo : buffer_info D) : Prop :=
  2 ≤ coo.ndim ∧ coo.shape[coo.ndim - 1]? = some NDim

instance {D : Type} (NDim : Nat) (coo : buffer_info D) : Decidable (accepted NDim coo) :=
  inferInstanceAs (Decidable (2 ≤ coo.ndim ∧ coo.shape[coo.ndim - 1]? = some NDim))

/-! ## Concrete inputs -/

/-- An engine whose call operator returns the sum of the coordinates, shifted by the state it
holds, and leaves that state as it is. -/
def engine_sum (m : Int) (p : List Int) : Int × Int := (m + p.sum, m)

/-- A query array of shape `3 x 1 x 2`. -/
def query : buffer_info Int := ⟨[3, 1, 2], [1, 2, 3, 4, 5, 6]⟩

/-- A query array of shape `0 x 2`: no point at all. -/
def query_empty : buffer_info Int := ⟨[0, 2], []⟩

/-- A single point given as a one-dimensional array of length 2. -/
def query_point : buffer_info Int := ⟨[2], [1, 2]⟩

/-- A lower bound `lo` for `NDim = 2`. -/
def lo_box : buffer_info Int := ⟨[2], [10, 20]⟩

/-- An upper bound `hi` for `NDim = 2`. -/
def hi_box : buffer_info Int := ⟨[2], [30, 40]⟩

/-- A base grid for `NDim = 2`. -/
def grid_box : buffer_info Int := ⟨[2], [4, 5]⟩

/-- Coordinates of a single sample, a `1 x 2` matrix. -/
def coo_one : buffer_info Int := ⟨[1, 2], [15, 25]⟩

/-- The value of the single sample. -/
def val_one : buffer_info Int := ⟨[1], [7]⟩

/-- Coordinates of two samples, a `2 x 2` matrix. -/
def coo_two : buffer_info Int := ⟨[2, 2], [15, 25, 16, 26]⟩

/-- The values of the two samples. -/
def val_two : buffer_info Int := ⟨[2], [7, 8]⟩

/-- Coordinates of three samples, a `3 x 2` matrix. -/
def coo_three : buffer_info Int := ⟨[3, 2], [15, 25, 16, 26, 17, 27]⟩

/-- The values of the three samples. -/
def val_three : buffer_info Int := ⟨[3], [7, 8, 9]⟩

theorem check_vector (s : List Nat) (k : Nat) :
    (s.length == 1 && s[0]? == some k) = true ↔ s = [k] := by
  rcases s with _ | ⟨a, _ | ⟨b, t⟩⟩ <;> simp

theorem check_matrix (s : List Nat) (k : Nat) :
    (s.length == 2 && s[1]? == some k) = true ↔ s.length = 2 ∧ s[1]? = some k := by
  simp

theorem check_val (s t : List Nat) :
    (s.length == 1 && s[0]? == t[0]?) = true ↔ s.length = 1 ∧ s[0]? = t[0]? := by
  simp

theorem precondition_true (msg : String) : precondition true msg = .ok () := rfl
theorem precondition_false (msg : String) :
    precondition false msg = .error (.runtime_error msg) := rfl

theorem python_mba_of_shapes_ok {D : Type} (NDim : Nat) (lo hi : buffer_info D)
    (grid : buffer_info Int) (coo val : buffer_info D) (max_levels : Int) (tol min_fill : D)
    (cmin0 cmax0 : Nat → D) (grid0 : Nat → Nat)
    (h : shapes_ok NDim lo hi grid coo val) :
    python_mba NDim lo hi grid coo val max_levels tol min_fill cmin0 cmax0 grid0 =
      (do
        let n ← load coo.shape 0
        let cmin ← copy_n lo.data n ((List.range NDim).map cmin0)
        let cmax ← copy_n hi.data n ((List.range NDim).map cmax0)
        let grid_size ← copy_n (grid.data.map toSize) n ((List.range NDim).map grid0)
        return { cmin := cmin, cmax := cmax, grid_size := grid_size, coo_data := coo.data,
                 n := n, val_data := val.data, max_levels := max_levels, tol := tol,
                 min_fill := min_fill }) := by
  obtain ⟨h1, h2, h3, h4, h5⟩ := h
  have c1 := (check_vector lo.shape NDim).2 h1
  have c2 := (check_vector hi.shape NDim).2 h2
  have c3 := (check_vector grid.shape NDim).2 h3
  have c4 := (check_matrix coo.shape NDim).2 h4
  have c5 := (check_val val.shape coo.shape).2 h5
  unfold python_mba
  simp only [buffer_info.ndim, c1, c2, c3, c4, c5, precondition_true]
  rfl

theorem load_eq_ok {α : Type} (v : List α) (i : Nat) (x : α) (h : v[i]? = some x) :
    load v i = .ok x := by
  simp [load, h]

theorem store_eq_ok {α : Type} (v : List α) (i : Nat) (x : α) (h : i < v.length) :
    store v i x = .ok (v.set i x) := by
  simp [store, h]

theorem cstrides_length (l : List Nat) : (cstrides l).length = l.length := by
  induction l with
  | nil => rfl
  | cons x xs ih => simp [cstrides, ih]

theorem cstrides_drop (l : List Nat) (k : Nat) : (cstrides l).drop k = cstrides (l.drop k) := by
  induction l generalizing k with
  | nil => simp [cstrides]
  | cons x xs ih =>
    cases k with
    | zero => simp
    | succ k => simp [cstrides, ih]

theorem cstrides_getElem? (l : List Nat) (j : Nat) (h : j < l.length) :
    (cstrides l)[j]? = some (8 * (l.drop (j + 1)).prod) := by
  induction l generalizing j with
  | nil => simp at h
  | cons x xs ih =>
    cases j with
    | zero => simp [cstrides]
    | succ j =>
      simp only [List.length_cons, Nat.add_lt_add_iff_right] at h
      simpa [cstrides] using ih j h

theorem drop_set_self {α : Type} (l : List α) (i : Nat) (x : α) (h : i < l.length) :
    (l.set i x).drop i = x :: l.drop (i + 1) := by
  induction l generalizing i with
  | nil => simp at h
  | cons y ys ih =>
    cases i with
    | zero => simp
    | succ i =>
      simp only [List.length_cons, Nat.add_lt_add_iff_right] at h
      simpa using ih i h

theorem getElem?_of_drop_eq {α : Type} (l t : List α) (i j : Nat) (h : l.drop i = t.drop i) :
    l[i + j]? = t[i + j]? := by
  have := congrArg (fun u => u[j]?) h
  simpa [List.getElem?_drop] using this

theorem apply_loop_spec (cs sh : List Nat) (i : Nat) (shape strides : List Nat)
    (hlen : shape.length = sh.length) (hlen2 : strides.length = sh.length)
    (hi : i < sh.length) (hcs : ∀ j, j < sh.length → cs[j]? = sh[j]?)
    (hshape : shape.drop i = sh.drop i) (hstr : strides.drop i = (cstrides sh).drop i)
    (hbound : ∀ k, 8 * (sh.drop k).prod < 2 ^ 64) :
    apply_loop cs i shape strides = .ok (sh, cstrides sh) := by
  induction i generalizing shape strides with
  | zero =>
    simp only [List.drop_zero] at hshape hstr
    simp [apply_loop, hshape, hstr]
  | succ i ih =>
    have hi1 : i < sh.length := by omega
    have hc : cs[i]? = some sh[i] := by rw [hcs i hi1]; simp [hi1]
    have hs1 : strides[i + 1]? = some (8 * (sh.drop (i + 2)).prod) := by
      have := getElem?_of_drop_eq strides (cstrides sh) (i + 1) 0 hstr
      simp only [Nat.add_zero] at this
      rw [this, cstrides_getElem? sh (i + 1) hi]
    have ht0 : shape[i + 1]? = some sh[i + 1] := by
      have := getElem?_of_drop_eq shape sh (i + 1) 0 hshape
      simp only [Nat.add_zero] at this
      rw [this]; simp [hi]
    have ht : (shape.set i sh[i])[i + 1]? = some sh[i + 1] := by
      rw [List.getElem?_set_ne (by omega)]; exact ht0
    have hprod : (sh.drop (i + 1)).prod = sh[i + 1] * (sh.drop (i + 2)).prod := by
      rw [List.drop_eq_getElem_cons hi, List.prod_cons]
    have hval : (8 * (sh.drop (i + 2)).prod * sh[i + 1]) % 2 ^ 64
        = 8 * (sh.drop (i + 1)).prod := by
      have hb := hbound (i + 1)
      rw [hprod] at hb ⊢
      rw [Nat.mod_eq_of_lt (by nlinarith)]
      ring
    have hgoal : apply_loop cs (i + 1) shape strides
        = apply_loop cs i (shape.set i sh[i]) (strides.set i (8 * (sh.drop (i + 1)).prod)) := by
      rw [apply_loop, load_eq_ok cs i _ hc]
      simp only [bind, Except.bind]
      rw [store_eq_ok shape i _ (by omega)]
      simp only [load_eq_ok strides (i + 1) _ hs1, load_eq_ok _ (i + 1) _ ht, hval]
      rw [store_eq_ok strides i _ (by omega)]
    rw [hgoal]
    apply ih
    · simp [hlen]
    · simp [hlen2]
    · exact hi1
    · rw [drop_set_self shape i _ (by omega), hshape, List.drop_eq_getElem_cons hi1]
    · rw [drop_set_self strides i _ (by omega), hstr, cstrides_drop, cstrides_drop,
        List.drop_eq_getElem_cons hi1, cstrides]

theorem toInt_toNat (x : Nat) (h : x < 2 ^ 31) : (toInt x).toNat = x := by
  have h1 : x % 2 ^ 32 = x := Nat.mod_eq_of_lt (by omega)
  unfold toInt
  rw [h1, if_pos h]
  exact Int.toNat_natCast x

theorem count_fold_lt (l : List Nat) (c : Nat) (h : c < 2 ^ 64) :
    l.foldl (fun c s => (c * s) % 2 ^ 64) c < 2 ^ 64 := by
  induction l generalizing c with
  | nil => simpa using h
  | cons x xs ih => exact ih _ (Nat.mod_lt _ (by norm_num))

theorem count_fold_mod (l : List Nat) (c : Nat) :
    l.foldl (fun c s => (c * s) % 2 ^ 64) c % 2 ^ 64 = (c * l.prod) % 2 ^ 64 := by
  induction l generalizing c with
  | nil => simp
  | cons x xs ih =>
    simp only [List.foldl_cons, List.prod_cons]
    rw [ih, Nat.mod_mul_mod, Nat.mul_assoc]

theorem prod_le_prod_filter (l : List Nat) : l.prod ≤ (l.filter (fun s => s ≠ 0)).prod := by
  induction l with
  | nil => simp
  | cons x xs ih =>
    by_cases hx : x = 0
    · simp [hx]
    · simp only [List.prod_cons, ne_eq, hx, not_false_eq_true, decide_True, List.filter_cons_of_pos]
      exact Nat.mul_le_mul_left x ih

theorem prod_filter_pos (l : List Nat) : 0 < (l.filter (fun s => s ≠ 0)).prod := by
  induction l with
  | nil => simp
  | cons x xs ih =>
    by_cases hx : x = 0
    · simpa [hx] using ih
    · simp only [ne_eq, hx, not_false_eq_true, decide_True, List.filter_cons_of_pos, List.prod_cons]
      exact Nat.mul_pos (Nat.pos_of_ne_zero hx) ih

theorem prod_drop_le_prod_filter (l : List Nat) (k : Nat) :
    (l.drop k).prod ≤ (l.filter (fun s => s ≠ 0)).prod := by
  induction l generalizing k with
  | nil => simp
  | cons x xs ih =>
    cases k with
    | zero => exact prod_le_prod_filter _
    | succ k =>
      simp only [List.drop_succ_cons]
      refine le_trans (ih k) ?_
      by_cases hx : x = 0
      · simp [hx]
      · simp only [ne_eq, hx, not_false_eq_true, decide_True, List.filter_cons_of_pos,
          List.prod_cons]
        exact Nat.le_mul_of_pos_left _ (Nat.pos_of_ne_zero hx)

theorem prod_filter_append_le (l t : List Nat) :
    (l.filter (fun s => s ≠ 0)).prod ≤ ((l ++ t).filter (fun s => s ≠ 0)).prod := by
  rw [List.filter_append, List.prod_append]
  exact Nat.le_mul_of_pos_right _ (prod_filter_pos t)

theorem count_eq_prod {D : Type} (b : buffer_info D) (h : b.WF) : b.count = b.shape.prod := by
  have h1 : b.shape.prod < 2 ^ 64 := by
    have := prod_le_prod_filter b.shape
    have := h.2.1
    omega
  have h2 := count_fold_lt b.shape 1 (by norm_num)
  have h3 := count_fold_mod b.shape 1
  rw [Nat.mod_eq_of_lt h2, Nat.one_mul, Nat.mod_eq_of_lt h1] at h3
  exact h3

theorem shape_eq_of_accepted {D : Type} (NDim : Nat) (coo : buffer_info D)
    (h : accepted NDim coo) : coo.shape = coo.shape.dropLast ++ [NDim] := by
  obtain ⟨h2, hl⟩ := h
  have hne : coo.shape ≠ [] := by
    intro h0; simp [buffer_info.ndim, h0] at h2
  have h3 := List.dropLast_append_getLast hne
  have h4 : coo.shape.getLast hne = NDim := by
    rw [List.getLast_eq_getElem]
    unfold buffer_info.ndim at hl
    rw [List.getElem?_eq_getElem (by unfold buffer_info.ndim at h2; omega)] at hl
    exact Option.some.inj hl
  rw [h4] at h3
  exact h3.symm

theorem apply_layout_ok {D : Type} (NDim : Nat) (coo : buffer_info D) (hN : 0 < NDim)
    (hacc : accepted NDim coo) (hwf : coo.WF) :
    apply_layout NDim coo
      = .ok (coo.shape.dropLast, cstrides coo.shape.dropLast, coo.shape.dropLast.prod) := by
  have hshape := shape_eq_of_accepted NDim coo hacc
  have hcount := count_eq_prod coo hwf
  obtain ⟨hnd, hsize, -⟩ := hwf
  generalize hsh : coo.shape.dropLast = sh at hshape
  have hL : coo.ndim = sh.length + 1 := by simp [buffer_info.ndim, hshape]
  have hL1 : 1 ≤ sh.length := by have := hacc.1; omega
  have hcond : (decide (2 ≤ coo.ndim) && coo.shape[coo.ndim - 1]? == some NDim) = true := by
    simp [hacc.1, hacc.2]
  have hcs : ∀ j, j < sh.length → coo.shape[j]? = sh[j]? := by
    intro j hj
    rw [hshape, List.getElem?_append_left hj]
  have hbound : ∀ k, 8 * (sh.drop k).prod < 2 ^ 64 := by
    intro k
    have h1 := prod_drop_le_prod_filter sh k
    have h2 := prod_filter_append_le sh [NDim]
    rw [← hshape] at h2
    omega
  have hlast : sh.drop (sh.length - 1) = [sh[sh.length - 1]] := by
    rw [List.drop_eq_getElem_cons (by omega)]
    simp [show sh.length - 1 + 1 = sh.length by omega]
  have hc : coo.shape[coo.ndim - 2]? = some sh[sh.length - 1] := by
    rw [show coo.ndim - 2 = sh.length - 1 by omega, hcs _ (by omega)]
    simp [List.getElem?_eq_getElem, hL1]
  have hi : (toInt (coo.ndim - 2)).toNat = sh.length - 1 := by
    rw [toInt_toNat _ (by omega)]; omega
  have hloop := apply_loop_spec coo.shape sh (sh.length - 1)
    ((List.replicate sh.length 0).set (sh.length - 1) sh[sh.length - 1])
    ((List.replicate sh.length 0).set (sh.length - 1) 8)
    (by simp) (by simp) (by omega) hcs
    (by rw [drop_set_self _ _ _ (by simp; omega), hlast]
        simp [show sh.length - 1 + 1 = sh.length by omega])
    (by rw [drop_set_self _ _ _ (by simp; omega), cstrides_drop, hlast]
        simp [show sh.length - 1 + 1 = sh.length by omega, cstrides])
    hbound
  have hn : coo.count / NDim = sh.prod := by
    rw [hcount, hshape]
    simp [Nat.mul_div_cancel _ hN]
  unfold apply_layout
  dsimp only
  rw [hcond, precondition_true]
  simp only [bind, Except.bind, load_eq_ok _ _ _ hc, List.length_replicate]
  rw [show coo.ndim - 1 = sh.length by omega]
  rw [store_eq_ok _ _ _ (by simp; omega), store_eq_ok _ _ _ (by simp; omega)]
  simp only [hi, hloop, hn]
  simp [Nat.pos_iff_ne_zero.1 hN, pure, Except.pure]

theorem point_at_ok {D : Type} (NDim : Nat) (data : List D) (k : Nat)
    (h : (k + 1) * NDim ≤ data.length) :
    point_at NDim data k = .ok ((data.drop (k * NDim)).take NDim) := by
  simp [point_at, h]

theorem transform_ok {D M : Type} (call : M → List D → D × M) (NDim : Nat) (data : List D)
    (m : M) (n : Nat) (h : n * NDim ≤ data.length) :
    ∃ vals m1, transform call NDim data m n = (.ok vals, m1) ∧ vals.length = n := by
  induction n with
  | zero => exact ⟨[], m, rfl, rfl⟩
  | succ k ih =>
    have hk : k * NDim ≤ data.length := by
      have : k * NDim ≤ (k + 1) * NDim := Nat.mul_le_mul_right _ (Nat.le_succ k)
      omega
    obtain ⟨vals, m1, h1, h2⟩ := ih hk
    refine ⟨vals ++ [(call m1 ((data.drop (k * NDim)).take NDim)).1],
      (call m1 ((data.drop (k * NDim)).take NDim)).2, ?_, by simp [h2]⟩
    rw [transform, h1]
    simp only [point_at_ok NDim data k h]

theorem transform_values {D M : Type} (call : M → List D → D × M) (NDim : Nat) (data : List D)
    (m : M) (n : Nat) (h : n * NDim ≤ data.length) (hro : ∀ m p, (call m p).2 = m) :
    transform call NDim data m n
      = (.ok ((List.range n).map (fun k => (call m ((data.drop (k * NDim)).take NDim)).1)), m) := by
  induction n with
  | zero => rfl
  | succ k ih =>
    have hk : k * NDim ≤ data.length := by
      have : k * NDim ≤ (k + 1) * NDim := Nat.mul_le_mul_right _ (Nat.le_succ k)
      omega
    rw [transform, ih hk]
    simp only [point_at_ok NDim data k h, hro, List.range_succ, List.map_append, List.map_cons,
      List.map_nil]

theorem apply_ok {D M : Type} (NDim : Nat) (call : M → List D → D × M) (m : M)
    (coo : buffer_info D) (hN : 0 < NDim) (hacc : accepted NDim coo) (hwf : coo.WF) :
    ∃ val m1, transform call NDim coo.data m coo.shape.dropLast.prod = (.ok val, m1) ∧
      val.length = coo.shape.dropLast.prod ∧
      apply NDim call m coo
        = (.ok { itemsize := 8, ndim := coo.ndim - 1, shape := coo.shape.dropLast,
                 strides := cstrides coo.shape.dropLast, data := val }, m1) := by
  have hlen : coo.shape.dropLast.prod * NDim ≤ coo.data.length := by
    have h1 := shape_eq_of_accepted NDim coo hacc
    have h2 := hwf.2.2
    rw [h1] at h2
    simp only [List.prod_append, List.prod_cons, List.prod_nil, Nat.mul_one] at h2
    rw [h2]
  obtain ⟨val, m1, h1, h2⟩ := transform_ok call NDim coo.data m _ hlen
  refine ⟨val, m1, h1, h2, ?_⟩
  unfold apply
  rw [apply_layout_ok NDim coo hN hacc hwf]
  simp only [h1]

theorem copy_n_ok {α : Type} (src : List α) (n : Nat) (dst : List α) (h1 : n ≤ src.length)
    (h2 : n ≤ dst.length) : copy_n src n dst = .ok (src.take n ++ dst.drop n) := by
  simp [copy_n, h1, h2]

theorem load_error {α : Type} (v : List α) (i : Nat) (e : Failure)
    (h : load v i = .error e) : e = .undefined := by
  unfold load at h
  split at h <;> simp_all

theorem copy_n_error {α : Type} (src : List α) (n : Nat) (dst : List α) (e : Failure)
    (h : copy_n src n dst = .error e) : e = .undefined := by
  unfold copy_n at h
  split at h <;> simp_all

theorem bind_ne_runtime_error {α β : Type} (x : Except Failure α) (f : α → Except Failure β)
    (what : String) (hx : ∀ e, x = .error e → e = .undefined)
    (hf : ∀ a, f a ≠ .error (.runtime_error what)) :
    (x >>= f) ≠ .error (.runtime_error what) := by
  cases x with
  | error e =>
    have := hx e rfl
    subst this
    simp [bind, Except.bind]
  | ok a => exact hf a

theorem error_eq_iff {α : Type} (a b : String) :
    (Except.error (Failure.runtime_error a) : Except Failure α) = .error (.runtime_error b)
      ↔ b = a := by
  simp [eq_comm]

theorem python_mba_no_error_of_shapes_ok {D : Type} (NDim : Nat) (lo hi : buffer_info D)
    (grid : buffer_info Int) (coo val : buffer_info D) (max_levels : Int) (tol min_fill : D)
    (cmin0 cmax0 : Nat → D) (grid0 : Nat → Nat)
    (h : shapes_ok NDim lo hi grid coo val) (what : String) :
    python_mba NDim lo hi grid coo val max_levels tol min_fill cmin0 cmax0 grid0
      ≠ .error (.runtime_error what) := by
  rw [python_mba_of_shapes_ok _ _ _ _ _ _ _ _ _ _ _ _ h]
  refine bind_ne_runtime_error _ _ _ (fun e => load_error _ _ e) (fun n => ?_)
  refine bind_ne_runtime_error _ _ _ (fun e => copy_n_error _ _ _ e) (fun cmin => ?_)
  refine bind_ne_runtime_error _ _ _ (fun e => copy_n_error _ _ _ e) (fun cmax => ?_)
  refine bind_ne_runtime_error _ _ _ (fun e => copy_n_error _ _ _ e) (fun g => ?_)
  simp [pure, Except.pure]

theorem python_mba_reaches_engine {D : Type} (NDim : Nat) (lo hi : buffer_info D)
    (grid : buffer_info Int) (coo val : buffer_info D) (max_levels : Int) (tol min_fill : D)
    (cmin0 cmax0 : Nat → D) (grid0 : Nat → Nat)
    (h : shapes_ok NDim lo hi grid coo val) (n : Nat) (hn : coo.shape[0]? = some n)
    (hle : n ≤ NDim) (hlo : n ≤ lo.data.length) (hhi : n ≤ hi.data.length)
    (hgrid : n ≤ grid.data.length) :
    python_mba NDim lo hi grid coo val max_levels tol min_fill cmin0 cmax0 grid0 =
      .ok { cmin := lo.data.take n ++ ((List.range NDim).map cmin0).drop n,
            cmax := hi.data.take n ++ ((List.range NDim).map cmax0).drop n,
            grid_size := (grid.data.map toSize).take n ++ ((List.range NDim).map grid0).drop n,
            coo_data := coo.data, n := n, val_data := val.data, max_levels := max_levels,
            tol := tol, min_fill := min_fill } := by
  rw [python_mba_of_shapes_ok _ _ _ _ _ _ _ _ _ _ _ _ h, load_eq_ok _ _ _ hn]
  simp only [bind, Except.bind]
  rw [copy_n_ok _ _ _ hlo (by simpa using hle), copy_n_ok _ _ _ hhi (by simpa using hle),
    copy_n_ok _ _ _ (by simpa using hgrid) (by simpa using hle)]
  rfl

theorem python_mba_lo_error {D : Type} (NDim : Nat) (lo hi : buffer_info D)
    (grid : buffer_info Int) (coo val : buffer_info D) (max_levels : Int) (tol min_fill : D)
    (cmin0 cmax0 : Nat → D) (grid0 : Nat → Nat) (h1 : lo.shape ≠ [NDim]) :
    python_mba NDim lo hi grid coo val max_levels tol min_fill cmin0 cmax0 grid0 =
      .error (.runtime_error ("lo should be a vector of size " ++ toString NDim)) := by
  have c1 : (lo.shape.length == 1 && lo.shape[0]? == some NDim) = false := by
    rw [← Bool.not_eq_true, check_vector]; exact h1
  unfold python_mba
  simp only [buffer_info.ndim, c1, precondition_false]
  rfl

theorem python_mba_hi_error {D : Type} (NDim : Nat) (lo hi : buffer_info D)
    (grid : buffer_info Int) (coo val : buffer_info D) (max_levels : Int) (tol min_fill : D)
    (cmin0 cmax0 : Nat → D) (grid0 : Nat → Nat) (h1 : lo.shape = [NDim])
    (h2 : hi.shape ≠ [NDim]) :
    python_mba NDim lo hi grid coo val max_levels tol min_fill cmin0 cmax0 grid0 =
      .error (.runtime_error ("hi should be a vector of size " ++ toString NDim)) := by
  have c1 := (check_vector lo.shape NDim).2 h1
  have c2 : (hi.shape.length == 1 && hi.shape[0]? == some NDim) = false := by
    rw [← Bool.not_eq_true, check_vector]; exact h2
  unfold python_mba
  simp only [buffer_info.ndim, c1, c2, precondition_false, precondition_true]
  rfl

theorem python_mba_grid_error {D : Type} (NDim : Nat) (lo hi : buffer_info D)
    (grid : buffer_info Int) (coo val : buffer_info D) (max_levels : Int) (tol min_fill : D)
    (cmin0 cmax0 : Nat → D) (grid0 : Nat → Nat) (h1 : lo.shape = [NDim])
    (h2 : hi.shape = [NDim]) (h3 : grid.shape ≠ [NDim]) :
    python_mba NDim lo hi grid coo val max_levels tol min_fill cmin0 cmax0 grid0 =
      .error (.runtime_error ("grid should be a vector of size " ++ toString NDim)) := by
  have c1 := (check_vector lo.shape NDim).2 h1
  have c2 := (check_vector hi.shape NDim).2 h2
  have c3 : (grid.shape.length == 1 && grid.shape[0]? == some NDim) = false := by
    rw [← Bool.not_eq_true, check_vector]; exact h3
  unfold python_mba
  simp only [buffer_info.ndim, c1, c2, c3, precondition_false, precondition_true]
  rfl

theorem python_mba_coo_error {D : Type} (NDim : Nat) (lo hi : buffer_info D)
    (grid : buffer_info Int) (coo val : buffer_info D) (max_levels : Int) (tol min_fill : D)
    (cmin0 cmax0 : Nat → D) (grid0 : Nat → Nat) (h1 : lo.shape = [NDim])
    (h2 : hi.shape = [NDim]) (h3 : grid.shape = [NDim])
    (h4 : ¬ (coo.shape.length = 2 ∧ coo.shape[1]? = some NDim)) :
    python_mba NDim lo hi grid coo val max_levels tol min_fill cmin0 cmax0 grid0 =
      .error (.runtime_error ("coo should be a n x " ++ toString NDim ++ " matrix")) := by
  have c1 := (check_vector lo.shape NDim).2 h1
  have c2 := (check_vector hi.shape NDim).2 h2
  have c3 := (check_vector grid.shape NDim).2 h3
  have c4 : (coo.shape.length == 2 && coo.shape[1]? == some NDim) = false := by
    rw [← Bool.not_eq_true, check_matrix]; exact h4
  unfold python_mba
  simp only [buffer_info.ndim, c1, c2, c3, c4, precondition_false, precondition_true]
  rfl

theorem python_mba_val_error {D : Type} (NDim : Nat) (lo hi : buffer_info D)
    (grid : buffer_info Int) (coo val : buffer_info D) (max_levels : Int) (tol min_fill : D)
    (cmin0 cmax0 : Nat → D) (grid0 : Nat → Nat) (h1 : lo.shape = [NDim])
    (h2 : hi.shape = [NDim]) (h3 : grid.shape = [NDim])
    (h4 : coo.shape.length = 2 ∧ coo.shape[1]? = some NDim)
    (h5 : ¬ (val.shape.length = 1 ∧ val.shape[0]? = coo.shape[0]?)) :
    python_mba NDim lo hi grid coo val max_levels tol min_fill cmin0 cmax0 grid0 =
      .error (.runtime_error "coo and val dimensions disagree") := by
  have c1 := (check_vector lo.shape NDim).2 h1
  have c2 := (check_vector hi.shape NDim).2 h2
  have c3 := (check_vector grid.shape NDim).2 h3
  have c4 := (check_matrix coo.shape NDim).2 h4
  have c5 : (val.shape.length == 1 && val.shape[0]? == coo.shape[0]?) = false := by
    rw [← Bool.not_eq_true, check_val]; exact h5
  unfold python_mba
  simp only [buffer_info.ndim, c1, c2, c3, c4, c5, precondition_false, precondition_true]
  rfl

/-- C3: the constructor throws a `std::runtime_error` if and only if one of the five shape
conditions fails (lo, hi and grid one-dimensional of length `NDim`, coo two-dimensional with
second axis `NDim`, val one-dimensional with as many entries as coo has rows), and the message
is that of the first failing check in the order lo, hi, grid, coo, val. An error ends the
constructor before the copies and before the engine constructor is called, so no engine
arguments come out of it. -/
theorem python_mba_shape_errors {D : Type} (NDim : Nat) (lo hi : buffer_info D)
    (grid : buffer_info Int) (coo val : buffer_info D) (max_levels : Int) (tol min_fill : D)
    (cmin0 cmax0 : Nat → D) (grid0 : Nat → Nat) :
    ((∃ what, python_mba NDim lo hi grid coo val max_levels tol min_fill cmin0 cmax0 grid0
        = .error (.runtime_error what)) ↔ ¬ shapes_ok NDim lo hi grid coo val) ∧
    ∀ what, python_mba NDim lo hi grid coo val max_levels tol min_fill cmin0 cmax0 grid0
        = .error (.runtime_error what) ↔
      (lo.shape ≠ [NDim] ∧ what = "lo should be a vector of size " ++ toString NDim) ∨
      (lo.shape = [NDim] ∧ hi.shape ≠ [NDim] ∧
        what = "hi should be a vector of size " ++ toString NDim) ∨
      (lo.shape = [NDim] ∧ hi.shape = [NDim] ∧ grid.shape ≠ [NDim] ∧
        what = "grid should be a vector of size " ++ toString NDim) ∨
      (lo.shape = [NDim] ∧ hi.shape = [NDim] ∧ grid.shape = [NDim] ∧
        ¬ (coo.shape.length = 2 ∧ coo.shape[1]? = some NDim) ∧
        what = "coo should be a n x " ++ toString NDim ++ " matrix") ∨
      (lo.shape = [NDim] ∧ hi.shape = [NDim] ∧ grid.shape = [NDim] ∧
        (coo.shape.length = 2 ∧ coo.shape[1]? = some NDim) ∧
        ¬ (val.shape.length = 1 ∧ val.shape[0]? = coo.shape[0]?) ∧
        what = "coo and val dimensions disagree") := by
  have key : ∀ what, python_mba NDim lo hi grid coo val max_levels tol min_fill cmin0 cmax0 grid0
        = .error (.runtime_error what) ↔
      (lo.shape ≠ [NDim] ∧ what = "lo should be a vector of size " ++ toString NDim) ∨
      (lo.shape = [NDim] ∧ hi.shape ≠ [NDim] ∧
        what = "hi should be a vector of size " ++ toString NDim) ∨
      (lo.shape = [NDim] ∧ hi.shape = [NDim] ∧ grid.shape ≠ [NDim] ∧
        what = "grid should be a vector of size " ++ toString NDim) ∨
      (lo.shape = [NDim] ∧ hi.shape = [NDim] ∧ grid.shape = [NDim] ∧
        ¬ (coo.shape.length = 2 ∧ coo.shape[1]? = some NDim) ∧
        what = "coo should be a n x " ++ toString NDim ++ " matrix") ∨
      (lo.shape = [NDim] ∧ hi.shape = [NDim] ∧ grid.shape = [NDim] ∧
        (coo.shape.length = 2 ∧ coo.shape[1]? = some NDim) ∧
        ¬ (val.shape.length = 1 ∧ val.shape[0]? = coo.shape[0]?) ∧
        what = "coo and val dimensions disagree") := by
    intro what
    by_cases h1 : lo.shape = [NDim]
    · by_cases h2 : hi.shape = [NDim]
      · by_cases h3 : grid.shape = [NDim]
        · by_cases h4 : coo.shape.length = 2 ∧ coo.shape[1]? = some NDim
          · by_cases h5 : val.shape.length = 1 ∧ val.shape[0]? = coo.shape[0]?
            · have hne := python_mba_no_error_of_shapes_ok NDim lo hi grid coo val max_levels
                tol min_fill cmin0 cmax0 grid0 ⟨h1, h2, h3, h4, h5⟩ what
              simp only [hne, false_iff]
              rintro (⟨hx, -⟩ | ⟨-, hx, -⟩ | ⟨-, -, hx, -⟩ | ⟨-, -, -, hx, -⟩ | ⟨-, -, -, -, hx, -⟩)
              · exact hx h1
              · exact hx h2
              · exact hx h3
              · exact hx h4
              · exact hx h5
            · rw [python_mba_val_error NDim lo hi grid coo val max_levels tol min_fill
                cmin0 cmax0 grid0 h1 h2 h3 h4 h5, error_eq_iff]
              constructor
              · intro h
                exact Or.inr (Or.inr (Or.inr (Or.inr ⟨h1, h2, h3, h4, h5, h⟩)))
              · rintro (⟨hx, -⟩ | ⟨-, hx, -⟩ | ⟨-, -, hx, -⟩ | ⟨-, -, -, hx, -⟩ | ⟨-, -, -, -, -, hw⟩)
                · exact absurd h1 hx
                · exact absurd h2 hx
                · exact absurd h3 hx
                · exact absurd h4 hx
                · exact hw
          · rw [python_mba_coo_error NDim lo hi grid coo val max_levels tol min_fill
              cmin0 cmax0 grid0 h1 h2 h3 h4, error_eq_iff]
            constructor
            · intro h
              exact Or.inr (Or.inr (Or.inr (Or.inl ⟨h1, h2, h3, h4, h⟩)))
            · rintro (⟨hx, -⟩ | ⟨-, hx, -⟩ | ⟨-, -, hx, -⟩ | ⟨-, -, -, -, hw⟩ | ⟨-, -, -, hx, -⟩)
              · exact absurd h1 hx
              · exact absurd h2 hx
              · exact absurd h3 hx
              · exact hw
              · exact absurd hx h4
        · rw [python_mba_grid_error NDim lo hi grid coo val max_levels tol min_fill
            cmin0 cmax0 grid0 h1 h2 h3, error_eq_iff]
          constructor
          · intro h
            exact Or.inr (Or.inr (Or.inl ⟨h1, h2, h3, h⟩))
          · rintro (⟨hx, -⟩ | ⟨-, hx, -⟩ | ⟨-, -, -, hw⟩ | ⟨-, -, hx, -⟩ | ⟨-, -, hx, -⟩)
            · exact absurd h1 hx
            · exact absurd h2 hx
            · exact hw
            · exact absurd hx h3
            · exact absurd hx h3
      · rw [python_mba_hi_error NDim lo hi grid coo val max_levels tol min_fill
          cmin0 cmax0 grid0 h1 h2, error_eq_iff]
        constructor
        · intro h
          exact Or.inr (Or.inl ⟨h1, h2, h⟩)
        · rintro (⟨hx, -⟩ | ⟨-, -, hw⟩ | ⟨-, hx, -⟩ | ⟨-, hx, -⟩ | ⟨-, hx, -⟩)
          · exact absurd h1 hx
          · exact hw
          · exact absurd hx h2
          · exact absurd hx h2
          · exact absurd hx h2
    · rw [python_mba_lo_error NDim lo hi grid coo val max_levels tol min_fill
        cmin0 cmax0 grid0 h1, error_eq_iff]
      constructor
      · intro h
        exact Or.inl ⟨h1, h⟩
      · rintro (⟨-, hw⟩ | ⟨hx, -⟩ | ⟨hx, -⟩ | ⟨hx, -⟩ | ⟨hx, -⟩)
        · exact hw
        · exact absurd hx h1
        · exact absurd hx h1
        · exact absurd hx h1
        · exact absurd hx h1
  refine ⟨?_, key⟩
  constructor
  · rintro ⟨what, hw⟩ hok
    exact python_mba_no_error_of_shapes_ok NDim lo hi grid coo val max_levels tol min_fill
      cmin0 cmax0 grid0 hok what hw
  · intro hnot
    unfold shapes_ok at hnot
    by_cases h1 : lo.shape = [NDim]
    · by_cases h2 : hi.shape = [NDim]
      · by_cases h3 : grid.shape = [NDim]
        · by_cases h4 : coo.shape.length = 2 ∧ coo.shape[1]? = some NDim
          · have h5 : ¬ (val.shape.length = 1 ∧ val.shape[0]? = coo.shape[0]?) :=
              fun h5 => hnot ⟨h1, h2, h3, h4, h5⟩
            exact ⟨_, python_mba_val_error NDim lo hi grid coo val max_levels tol min_fill
              cmin0 cmax0 grid0 h1 h2 h3 h4 h5⟩
          · exact ⟨_, python_mba_coo_error NDim lo hi grid coo val max_levels tol min_fill
              cmin0 cmax0 grid0 h1 h2 h3 h4⟩
        · exact ⟨_, python_mba_grid_error NDim lo hi grid coo val max_levels tol min_fill
            cmin0 cmax0 grid0 h1 h2 h3⟩
      · exact ⟨_, python_mba_hi_error NDim lo hi grid coo val max_levels tol min_fill
          cmin0 cmax0 grid0 h1 h2⟩
    · exact ⟨_, python_mba_lo_error NDim lo hi grid coo val max_levels tol min_fill
        cmin0 cmax0 grid0 h1⟩

/-- C1: for every query array accepted by `apply` (at least two axes, the last of length
`NDim`), `apply` returns an array whose shape has `ndim - 1` entries, entry `j` being entry
`j` of the input shape for every `j < ndim - 1`: the input shape without its last axis. -/
theorem apply_output_shape {D M : Type} (NDim : Nat) (call : M → List D → D × M) (m : M)
    (coo : buffer_info D) (hN : 0 < NDim) (hacc : accepted NDim coo) (hwf : coo.WF) :
    ∃ out m1, apply NDim call m coo = (.ok out, m1) ∧ out.ndim = coo.ndim - 1 ∧
      out.shape.length = coo.ndim - 1 ∧
      (∀ j, j < coo.ndim - 1 → out.shape[j]? = coo.shape[j]?) ∧
      out.shape = coo.shape.dropLast := by
  obtain ⟨val, m1, -, -, h⟩ := apply_ok NDim call m coo hN hacc hwf
  refine ⟨_, m1, h, rfl, ?_, ?_, rfl⟩
  · simp [buffer_info.ndim]
  · intro j hj
    have hs := shape_eq_of_accepted NDim coo hacc
    have hj2 : j < coo.shape.dropLast.length := by simpa [buffer_info.ndim] using hj
    show coo.shape.dropLast[j]? = coo.shape[j]?
    conv_rhs => rw [hs]
    rw [List.getElem?_append_left hj2]

/-- C1 at the `3 x 1 x 2` query array: the returned shape is `3 x 1`. -/
theorem apply_output_shape_witness :
    0 < 2 ∧ accepted 2 query ∧ query.WF ∧
    ∃ out m1, apply 2 engine_sum 0 query = (.ok out, m1) ∧ out.ndim = query.ndim - 1 ∧
      out.shape.length = query.ndim - 1 ∧
      (∀ j, j < query.ndim - 1 → out.shape[j]? = query.shape[j]?) ∧
      out.shape = query.shape.dropLast :=
  ⟨by decide, by decide, by decide,
    apply_output_shape 2 engine_sum 0 query (by decide) (by decide) (by decide)⟩

/-- C10: for every accepted query array, `apply` completes without an access outside
`shape`, `strides` or the input shape (such an access would end the embedding in undefined
behaviour instead of a value), and the strides it returns are the row-major byte strides of
the output shape for 8-byte elements: the last stride is 8, `strides[j]` is
`strides[j+1] * shape[j+1]` for every `j < ndim - 2`, with no wrap-around of `size_t`, and
`strides[j]` is 8 times the product of the `shape[k]` with `k > j`. -/
theorem apply_strides {D M : Type} (NDim : Nat) (call : M → List D → D × M) (m : M)
    (coo : buffer_info D) (hN : 0 < NDim) (hacc : accepted NDim coo) (hwf : coo.WF) :
    ∃ out m1, apply NDim call m coo = (.ok out, m1) ∧ out.itemsize = 8 ∧
      out.shape.length = coo.ndim - 1 ∧ out.strides.length = coo.ndim - 1 ∧
      out.strides[coo.ndim - 2]? = some 8 ∧
      (∀ j, j + 2 < coo.ndim → ∃ s t, out.strides[j + 1]? = some s ∧
        out.shape[j + 1]? = some t ∧ out.strides[j]? = some (s * t)) ∧
      (∀ j, j + 1 < coo.ndim → out.strides[j]? = some (8 * (out.shape.drop (j + 1)).prod)) := by
  obtain ⟨val, m1, -, -, h⟩ := apply_ok NDim call m coo hN hacc hwf
  have hlen : coo.shape.dropLast.length = coo.ndim - 1 := by simp [buffer_info.ndim]
  have h2 := hacc.1
  refine ⟨_, m1, h, rfl, hlen, ?_, ?_, ?_, ?_⟩
  · show (cstrides coo.shape.dropLast).length = coo.ndim - 1
    rw [cstrides_length, hlen]
  · show (cstrides coo.shape.dropLast)[coo.ndim - 2]? = some 8
    rw [cstrides_getElem? _ _ (by omega),
      List.drop_eq_nil_of_le (by omega)]
    rfl
  · intro j hj
    have hj1 : j + 1 < coo.shape.dropLast.length := by omega
    refine ⟨8 * (coo.shape.dropLast.drop (j + 2)).prod, coo.shape.dropLast[j + 1], ?_, ?_, ?_⟩
    · exact cstrides_getElem? _ _ hj1
    · exact List.getElem?_eq_getElem hj1
    · show (cstrides coo.shape.dropLast)[j]? = _
      rw [cstrides_getElem? _ _ (by omega), List.drop_eq_getElem_cons hj1, List.prod_cons]
      congr 1
      ring
  · intro j hj
    exact cstrides_getElem? _ _ (by omega)

/-- C10 at the `3 x 1 x 2` query array, whose output has strides `8, 8`. -/
theorem apply_strides_witness :
    0 < 2 ∧ accepted 2 query ∧ query.WF ∧
    ∃ out m1, apply 2 engine_sum 0 query = (.ok out, m1) ∧ out.itemsize = 8 ∧
      out.shape.length = query.ndim - 1 ∧ out.strides.length = query.ndim - 1 ∧
      out.strides[query.ndim - 2]? = some 8 ∧
      (∀ j, j + 2 < query.ndim → ∃ s t, out.strides[j + 1]? = some s ∧
        out.shape[j + 1]? = some t ∧ out.strides[j]? = some (s * t)) ∧
      (∀ j, j + 1 < query.ndim →
        out.strides[j]? = some (8 * (out.shape.drop (j + 1)).prod)) :=
  ⟨by decide, by decide, by decide,
    apply_strides 2 engine_sum 0 query (by decide) (by decide) (by decide)⟩

/-- C9: for every accepted query array the element count is a multiple of `NDim`, the
value buffer of the returned array holds `count / NDim` doubles, one per query point, and
that number is the product of the entries of the returned shape; an array with a zero-length
leading axis is accepted like any other and gives no value at all. -/
theorem apply_point_count {D M : Type} (NDim : Nat) (call : M → List D → D × M) (m : M)
    (coo : buffer_info D) (hN : 0 < NDim) (hacc : accepted NDim coo) (hwf : coo.WF) :
    ∃ out m1, apply NDim call m coo = (.ok out, m1) ∧ coo.count % NDim = 0 ∧
      out.data.length = coo.count / NDim ∧ out.data.length = out.shape.prod := by
  obtain ⟨val, m1, -, hval, h⟩ := apply_ok NDim call m coo hN hacc hwf
  have hcount : coo.count = coo.shape.dropLast.prod * NDim := by
    rw [count_eq_prod coo hwf]
    conv_lhs => rw [shape_eq_of_accepted NDim coo hacc]
    simp
  refine ⟨_, m1, h, ?_, ?_, hval⟩
  · rw [hcount]; exact Nat.mul_mod_left _ _
  · rw [hcount, Nat.mul_div_cancel _ hN]; exact hval

/-- C9 at the `0 x 2` query array: no point, no value, shape product zero. -/
theorem apply_point_count_witness :
    0 < 2 ∧ accepted 2 query_empty ∧ query_empty.WF ∧
    ∃ out m1, apply 2 engine_sum 0 query_empty = (.ok out, m1) ∧ query_empty.count % 2 = 0 ∧
      out.data.length = query_empty.count / 2 ∧ out.data.length = out.shape.prod :=
  ⟨by decide, by decide, by decide,
    apply_point_count 2 engine_sum 0 query_empty (by decide) (by decide) (by decide)⟩

/-- C5: for every accepted query array and an engine whose call operator leaves the engine
as it is, element `k` of the returned values is the engine called on point `k` alone, the
`NDim` doubles from offset `k * NDim` of the input in row-major order, for every `k` below
the number `count / NDim` of points; nothing of the other points or of the position in the
batch enters the value. -/
theorem apply_pointwise {D M : Type} (NDim : Nat) (call : M → List D → D × M) (m : M)
    (coo : buffer_info D) (hN : 0 < NDim) (hacc : accepted NDim coo) (hwf : coo.WF)
    (hro : ∀ m p, (call m p).2 = m) :
    ∃ out, apply NDim call m coo = (.ok out, m) ∧ out.data.length = coo.count / NDim ∧
      ∀ k, k < coo.count / NDim →
        ((coo.data.drop (k * NDim)).take NDim).length = NDim ∧
        out.data[k]? = some (call m ((coo.data.drop (k * NDim)).take NDim)).1 := by
  obtain ⟨val, m1, ht, hval, h⟩ := apply_ok NDim call m coo hN hacc hwf
  have hprod : coo.shape.prod = coo.shape.dropLast.prod * NDim := by
    conv_lhs => rw [shape_eq_of_accepted NDim coo hacc]
    simp
  have hdata : coo.data.length = coo.shape.dropLast.prod * NDim := by rw [hwf.2.2, hprod]
  have hn : coo.count / NDim = coo.shape.dropLast.prod := by
    rw [count_eq_prod coo hwf, hprod, Nat.mul_div_cancel _ hN]
  rw [transform_values call NDim coo.data m _ (le_of_eq hdata.symm) hro] at ht
  obtain ⟨hv, hm⟩ := Prod.mk.inj ht
  have hv := Except.ok.inj hv
  subst hm
  refine ⟨_, h, ?_, ?_⟩
  · rw [hn]; exact hval
  · intro k hk
    rw [hn] at hk
    constructor
    · rw [List.length_take, List.length_drop, hdata]
      have : (k + 1) * NDim ≤ coo.shape.dropLast.prod * NDim := Nat.mul_le_mul_right _ hk
      have : (k + 1) * NDim = k * NDim + NDim := by ring
      omega
    · show val[k]? = _
      rw [← hv]
      simp [hk]

/-- C5 at the `3 x 1 x 2` query array and the engine that sums the coordinates. -/
theorem apply_pointwise_witness :
    0 < 2 ∧ accepted 2 query ∧ query.WF ∧ (∀ m p, (engine_sum m p).2 = m) ∧
    ∃ out, apply 2 engine_sum 0 query = (.ok out, 0) ∧ out.data.length = query.count / 2 ∧
      ∀ k, k < query.count / 2 →
        ((query.data.drop (k * 2)).take 2).length = 2 ∧
        out.data[k]? = some (engine_sum 0 ((query.data.drop (k * 2)).take 2)).1 :=
  ⟨by decide, by decide, by decide, fun _ _ => rfl,
    apply_pointwise 2 engine_sum 0 query (by decide) (by decide) (by decide) (fun _ _ => rfl)⟩

/-- C4, as the code has it: `apply` throws if and only if the query array has fewer than two
axes or its last axis is not of length `NDim`; the error is the `coo should be a n x NDim
matrix` one and the engine is left alone; an array with at least two axes and a last axis of
length `NDim` is evaluated, whatever its leading shape. A one-dimensional array of length
`NDim` has a single axis and is therefore rejected. -/
theorem apply_rejects_iff {D M : Type} (NDim : Nat) (call : M → List D → D × M) (m : M)
    (coo : buffer_info D) (hN : 0 < NDim) (hwf : coo.WF) :
    ((∃ what, (apply NDim call m coo).1 = .error (.runtime_error what)) ↔
        (coo.ndim < 2 ∨ coo.shape.getLast? ≠ some NDim)) ∧
      (coo.ndim < 2 ∨ coo.shape.getLast? ≠ some NDim →
        apply NDim call m coo
          = (.error (.runtime_error ("coo should be a n x " ++ toString NDim ++ " matrix")), m)) ∧
      (2 ≤ coo.ndim ∧ coo.shape.getLast? = some NDim →
        ∃ out m1, apply NDim call m coo = (.ok out, m1)) := by
  have hlast : coo.shape.getLast? = coo.shape[coo.ndim - 1]? := by
    rw [List.getLast?_eq_getElem?]; rfl
  have hrej : coo.ndim < 2 ∨ coo.shape.getLast? ≠ some NDim →
      apply NDim call m coo
        = (.error (.runtime_error ("coo should be a n x " ++ toString NDim ++ " matrix")), m) := by
    intro hr
    have hcond : (decide (2 ≤ coo.ndim) && coo.shape[coo.ndim - 1]? == some NDim) = false := by
      rw [← Bool.not_eq_true]
      intro hc
      simp only [Bool.and_eq_true, decide_eq_true_eq, beq_iff_eq] at hc
      rcases hr with hr | hr
      · omega
      · exact hr (hlast.trans hc.2)
    have hl : apply_layout NDim coo
        = .error (.runtime_error ("coo should be a n x " ++ toString NDim ++ " matrix")) := by
      unfold apply_layout
      dsimp only
      rw [hcond, precondition_false]
      rfl
    unfold apply
    rw [hl]
  have hacc : 2 ≤ coo.ndim ∧ coo.shape.getLast? = some NDim →
      ∃ out m1, apply NDim call m coo = (.ok out, m1) := by
    rintro ⟨h2, h3⟩
    obtain ⟨val, m1, -, -, h⟩ := apply_ok NDim call m coo hN ⟨h2, hlast ▸ h3⟩ hwf
    exact ⟨_, m1, h⟩
  refine ⟨⟨?_, fun hr => ⟨_, by rw [hrej hr]⟩⟩, hrej, hacc⟩
  rintro ⟨what, hw⟩
  by_contra hcon
  push_neg at hcon
  have h2 : 2 ≤ coo.ndim := by omega
  obtain ⟨out, m1, h⟩ := hacc ⟨h2, hcon.2⟩
  rw [h] at hw
  exact absurd hw (by simp)

/-- C4 as amended, at the one-dimensional array of length 2: it is rejected. -/
theorem apply_rejects_iff_witness :
    0 < 2 ∧ query_point.WF ∧
    ((∃ what, (apply 2 engine_sum 0 query_point).1 = .error (.runtime_error what)) ↔
        (query_point.ndim < 2 ∨ query_point.shape.getLast? ≠ some 2)) ∧
      (query_point.ndim < 2 ∨ query_point.shape.getLast? ≠ some 2 →
        apply 2 engine_sum 0 query_point
          = (.error (.runtime_error ("coo should be a n x " ++ toString 2 ++ " matrix")), 0)) ∧
      (2 ≤ query_point.ndim ∧ query_point.shape.getLast? = some 2 →
        ∃ out m1, apply 2 engine_sum 0 query_point = (.ok out, m1)) :=
  ⟨by decide, by decide, apply_rejects_iff 2 engine_sum 0 query_point (by decide) (by decide)⟩

/-- C4 fails as stated: the one-dimensional array `[1, 2]` has a last axis of length
`NDim = 2`, and `apply` throws `coo should be a n x 2 matrix` instead of evaluating it. -/
theorem apply_rejects_single_point :
    query_point.shape.getLast? = some 2 ∧
      apply 2 engine_sum 0 query_point
        = (.error (.runtime_error "coo should be a n x 2 matrix"), 0) := by
  decide

/-- C2 fails on the code: `std::copy_n` is given the number `n` of samples where the claim
needs `NDim`. With one sample and `NDim = 2` only entry 0 of `lo`, `hi` and `grid` reaches the
engine; entry 1 of `cmin`, `cmax` and `grid_size` keeps whatever the locals held before (here
77, 88 and 99, not 20, 40 and 5). With three samples the copies run past the two-element
arrays. -/
theorem python_mba_single_sample_bounds :
    shapes_ok 2 lo_box hi_box grid_box coo_one val_one ∧
    python_mba 2 lo_box hi_box grid_box coo_one val_one 8 1 1
        (fun _ => 77) (fun _ => 88) (fun _ => 99)
      = .ok { cmin := [10, 77], cmax := [30, 88], grid_size := [4, 99],
              coo_data := [15, 25], n := 1, val_data := [7], max_levels := 8, tol := 1,
              min_fill := 1 } ∧
    shapes_ok 2 lo_box hi_box grid_box coo_three val_three ∧
    python_mba 2 lo_box hi_box grid_box coo_three val_three 8 1 1
        (fun _ => 77) (fun _ => 88) (fun _ => 99)
      = .error .undefined := by
  decide

/-- C7 fails as stated: with `max_levels = 0` (below 1), `tol = -1` (not above 0) and
`min_fill = 3` (outside the interval from 0 to 1) on otherwise valid input, all five checks
of the constructor pass and the engine constructor is called with these three values. -/
theorem python_mba_accepts_bad_config :
    shapes_ok 2 lo_box hi_box grid_box coo_two val_two ∧
    ((0 : Int) < 1 ∧ (-1 : Int) ≤ 0 ∧ ¬ ((0 : Int) < 3 ∧ (3 : Int) ≤ 1)) ∧
    python_mba 2 lo_box hi_box grid_box coo_two val_two 0 (-1) 3
        (fun _ => 77) (fun _ => 88) (fun _ => 99)
      = .ok { cmin := [10, 20], cmax := [30, 40], grid_size := [4, 5],
              coo_data := [15, 25, 16, 26], n := 2, val_data := [7, 8], max_levels := 0,
              tol := -1, min_fill := 3 } := by
  decide

/-- C7, as the code has it: the constructor checks none of `max_levels`, `tol` and
`min_fill`. For every input that passes the five shape checks, with at most `NDim` samples
and `NDim` elements behind `lo`, `hi` and `grid`, it raises no error and calls the engine
constructor with the three values it was given, unchanged. -/
theorem python_mba_forwards_config {D : Type} (NDim : Nat) (lo hi : buffer_info D)
    (grid : buffer_info Int) (coo val : buffer_info D) (max_levels : Int) (tol min_fill : D)
    (cmin0 cmax0 : Nat → D) (grid0 : Nat → Nat)
    (h : shapes_ok NDim lo hi grid coo val) (n : Nat) (hn : coo.shape[0]? = some n)
    (hle : n ≤ NDim) (hlo : lo.data.length = NDim) (hhi : hi.data.length = NDim)
    (hgrid : grid.data.length = NDim) :
    ∃ args, python_mba NDim lo hi grid coo val max_levels tol min_fill cmin0 cmax0 grid0
        = .ok args ∧
      args.max_levels = max_levels ∧ args.tol = tol ∧ args.min_fill = min_fill :=
  ⟨_, python_mba_reaches_engine NDim lo hi grid coo val max_levels tol min_fill cmin0 cmax0 grid0
    h n hn hle (by omega) (by omega) (by omega), rfl, rfl, rfl⟩

/-- C7 as amended, at `max_levels = 0`, `tol = -1`, `min_fill = 3`. -/
theorem python_mba_forwards_config_witness :
    shapes_ok 2 lo_box hi_box grid_box coo_two val_two ∧
    ∃ args, python_mba 2 lo_box hi_box grid_box coo_two val_two 0 (-1) 3
        (fun _ => 77) (fun _ => 88) (fun _ => 99) = .ok args ∧
      args.max_levels = 0 ∧ args.tol = -1 ∧ args.min_fill = 3 :=
  ⟨by decide, python_mba_forwards_config 2 lo_box hi_box grid_box coo_two val_two 0 (-1) 3
    (fun _ => 77) (fun _ => 88) (fun _ => 99) (by decide) 2 (by decide) (by decide) (by decide)
    (by decide) (by decide)⟩

end Pymba
